import Mathlib

/-!
# Verification of the `coinchecker` authenticated-request core

Shallow embedding of the repository's `src/client.rs` and `src/types.rs`
(the authenticated request subsystem of a Coincheck REST API client),
together with proofs of the specification's claims about it.

Bytes are modelled as `Nat` (reduced `% 256` where the source works on
`u8`), 32-bit words as `Nat` reduced `% 2^32`.  Strings are Lean
`String`s; the UTF-8 byte view used by the MAC is made explicit.
Effectful inputs (system clock, monotonic clock, the network) are
gathered in an explicit environment record, and `unwrap`-style panics of
the source are a distinguished outcome constructor.
-/

namespace Coinchecker

/-! ## 32-bit word arithmetic (the `u32` operations used by SHA-256) -/

/-- Truncate to a 32-bit word, i.e. `u32` wrap-around. -/
def w32 (n : Nat) : Nat := n % 4294967296

/-- 32-bit rotate right by `n`. -/
def rotr (n x : Nat) : Nat := w32 ((x >>> n) ||| (x <<< (32 - n)))

/-- Logical shift right (on a 32-bit value this needs no truncation). -/
def shr (n x : Nat) : Nat := x >>> n

/-! ## SHA-256 (FIPS 180-4), the hash underlying the `sha2` crate's `Sha256` -/

/-- The SHA-256 round constants `K` (fractional parts of cube roots of the
first 64 primes, FIPS 180-4 §4.2.2; written in decimal). -/
def sha256K : List Nat :=
  [1116352408, 1899447441, 3049323471, 3921009573, 961987163, 1508970993,
   2453635748, 2870763221, 3624381080, 310598401, 607225278, 1426881987,
   1925078388, 2162078206, 2614888103, 3248222580, 3835390401, 4022224774,
   264347078, 604807628, 770255983, 1249150122, 1555081692, 1996064986,
   2554220882, 2821834349, 2952996808, 3210313671, 3336571891, 3584528711,
   113926993, 338241895, 666307205, 773529912, 1294757372, 1396182291,
   1695183700, 1986661051, 2177026350, 2456956037, 2730485921, 2820302411,
   3259730800, 3345764771, 3516065817, 3600352804, 4094571909, 275423344,
   430227734, 506948616, 659060556, 883997877, 958139571, 1322822218,
   1537002063, 1747873779, 1955562222, 2024104815, 2227730452, 2361852424,
   2428436474, 2756734187, 3204031479, 3329325298]

/-- The SHA-256 initial hash value `H0` (fractional parts of square roots of
the first 8 primes, FIPS 180-4 §5.3.3; written in decimal). -/
def sha256H0 : List Nat :=
  [1779033703, 3144134277, 1013904242, 2773480762,
   1359893119, 2600822924, 528734635, 1541459225]

/-- Big-endian byte decomposition: `beBytes k v` is the `k`-byte big-endian
encoding of `v % 2^(8k)`. -/
def beBytes : Nat → Nat → List Nat
  | 0, _ => []
  | k + 1, v => beBytes k (v / 256) ++ [v % 256]

/-- Group a byte list into big-endian 32-bit words (4 bytes per word). -/
def bytesToWords : List Nat → List Nat
  | b0 :: b1 :: b2 :: b3 :: rest =>
      ((((b0 % 256) * 256 + b1 % 256) * 256 + b2 % 256) * 256 + b3 % 256) ::
        bytesToWords rest
  | _ => []

/-- SHA-256 message padding: append `0x80`, zero bytes up to 56 mod 64, then
the 8-byte big-endian bit length. -/
def sha256Pad (msg : List Nat) : List Nat :=
  msg ++ 128 :: List.replicate ((119 - msg.length % 64) % 64) 0
      ++ beBytes 8 (8 * msg.length)

/-- Split into 64-byte blocks.  Fuel-driven so that it reduces by
computation; `msg.length + 1` units of fuel always suffice. -/
def chunks64Fuel : Nat → List Nat → List (List Nat)
  | 0, _ => []
  | _, [] => []
  | fuel + 1, l => l.take 64 :: chunks64Fuel fuel (l.drop 64)

/-- Split a byte list into 64-byte blocks. -/
def chunks64 (l : List Nat) : List (List Nat) := chunks64Fuel (l.length + 1) l

/-- Extend the 16 message words to 64, keeping the schedule reversed (most
recent word first) so extension only looks at the head of the list. -/
def sha256ExtendRev : Nat → List Nat → List Nat
  | 0, w => w
  | k + 1, w =>
    let w2 := w.getD 1 0
    let w7 := w.getD 6 0
    let w15 := w.getD 14 0
    let w16 := w.getD 15 0
    let s0 := rotr 7 w15 ^^^ rotr 18 w15 ^^^ shr 3 w15
    let s1 := rotr 17 w2 ^^^ rotr 19 w2 ^^^ shr 10 w2
    sha256ExtendRev k (w32 (w16 + s0 + w7 + s1) :: w)

/-- One SHA-256 compression round; `st` is the working state
`[a,b,c,d,e,f,g,h]` and `kw` is `K[i] + W[i]` (mod 2^32). -/
def sha256Round (st : List Nat) (kw : Nat) : List Nat :=
  match st with
  | [a, b, c, d, e, f, g, h] =>
    let S1 := rotr 6 e ^^^ rotr 11 e ^^^ rotr 25 e
    let ch := (e &&& f) ^^^ ((4294967295 ^^^ e) &&& g)
    let temp1 := w32 (h + S1 + ch + kw)
    let S0 := rotr 2 a ^^^ rotr 13 a ^^^ rotr 22 a
    let maj := (a &&& b) ^^^ (a &&& c) ^^^ (b &&& c)
    let temp2 := w32 (S0 + maj)
    [w32 (temp1 + temp2), a, b, c, w32 (d + temp1), e, f, g]
  | _ => st

/-- Compress one 64-byte block into the running hash value. -/
def sha256Compress (hs : List Nat) (block : List Nat) : List Nat :=
  let w := (sha256ExtendRev 48 (bytesToWords block).reverse).reverse
  let kw := List.zipWith (fun k wi => w32 (k + wi)) sha256K w
  let st := kw.foldl sha256Round hs
  List.zipWith (fun x y => w32 (x + y)) hs st

/-- SHA-256 of a byte list, as the 32 digest bytes. -/
def sha256 (msg : List Nat) : List Nat :=
  let final := (chunks64 (sha256Pad msg)).foldl sha256Compress sha256H0
  (final.map (beBytes 4)).flatten

/-! ## HMAC-SHA256 (RFC 2104), the `hmac` crate's `Hmac<Sha256>` -/

/-- HMAC-SHA256 with block size 64: keys longer than a block are hashed
first, shorter keys padded with zeros; inner pad `0x36`, outer pad `0x5c`.
`Hmac::<Sha256>::new_from_slice` accepts keys of any length, so the `hmac`
crate's `InvalidKeyLength` branch in the source is unreachable for this
algorithm. -/
def hmacSha256 (key msg : List Nat) : List Nat :=
  let k0 := if 64 < key.length then sha256 key else key
  let k := k0 ++ List.replicate (64 - k0.length) 0
  let ipadded := k.map (fun b => (b % 256) ^^^ 54)
  let opadded := k.map (fun b => (b % 256) ^^^ 92)
  sha256 (opadded ++ sha256 (ipadded ++ msg))

/-! ## Hex encoding (the `hex` crate's `hex::encode`: lowercase, no
separators) and UTF-8 bytes of a string -/

/-- Lowercase hexadecimal digit for a nibble. -/
def hexDigitChar (n : Nat) : Char :=
  if n < 10 then Char.ofNat (48 + n) else Char.ofNat (87 + n)

/-- `hex::encode`: each byte becomes two lowercase hex digits, high nibble
first. -/
def hexEncode (bytes : List Nat) : String :=
  String.mk (bytes.foldr
    (fun b acc => hexDigitChar (b % 256 / 16) :: hexDigitChar (b % 16) :: acc) [])

/-- UTF-8 encoding of one character (what `str::as_bytes` exposes per
character of a Rust string). -/
def utf8EncodeCharBytes (c : Char) : List Nat :=
  let n := c.toNat
  if n < 128 then [n]
  else if n < 2048 then [192 + n / 64, 128 + n % 64]
  else if n < 65536 then [224 + n / 4096, 128 + n / 64 % 64, 128 + n % 64]
  else [240 + n / 262144, 128 + n / 4096 % 64, 128 + n / 64 % 64, 128 + n % 64]

/-- The UTF-8 bytes of a string (`str::as_bytes`). -/
def strBytes (s : String) : List Nat :=
  s.data.foldr (fun c acc => utf8EncodeCharBytes c ++ acc) []

/-! ## Decimal strings (`u128::to_string` and numeric read-back) -/

/-- Decimal digit character (`0`–`9`). -/
def digitChar (n : Nat) : Char := Char.ofNat (48 + n)

/-- Decimal digits of `n`, most significant first — the digits
`u128::to_string` produces. -/
def natDigits (n : Nat) : List Char :=
  if _h : n < 10 then [digitChar n]
  else natDigits (n / 10) ++ [digitChar (n % 10)]
termination_by n
decreasing_by exact Nat.div_lt_self (by omega) (by decide)

/-- `u128::to_string`: the decimal-string encoding of `n`. -/
def natToString (n : Nat) : String := String.mk (natDigits n)

/-- Is a decimal digit character? -/
def isDigitChar (c : Char) : Bool := 48 ≤ c.toNat && c.toNat ≤ 57

/-- The number a digit list denotes, read most-significant-first. -/
def decValue (cs : List Char) : Nat :=
  cs.foldl (fun a c => 10 * a + (c.toNat - 48)) 0

/-- Read a string back as a decimal number: defined exactly on nonempty
all-digit strings. -/
def parseDec (s : String) : Option Nat :=
  if s.data.isEmpty then none
  else if s.data.all isDigitChar then some (decValue s.data)
  else none

/-! ## Domain types of `client.rs` -/

/-- `reqwest::Method`, restricted to the standard verbs (the source only
distinguishes GET/POST/DELETE from everything else). -/
inductive Method where
  | GET
  | POST
  | DELETE
  | PUT
  | PATCH
  | HEAD
  | OPTIONS
  deriving Repr, DecidableEq

/-- A `reqwest::header::HeaderMap`, as its ordered (name, value) entries. -/
abbrev Headers := List (String × String)

/-- `HeaderMap::insert`: existing entries for the name are replaced; the
entry is appended.  (Every name the source inserts is distinct, so on the
source's paths this is plain append.) -/
def headerInsert (hs : Headers) (name val : String) : Headers :=
  hs.filter (fun h => h.1 != name) ++ [(name, val)]

/-- Look a name up in a header map. -/
def headerLookup (hs : Headers) (name : String) : Option String :=
  (hs.find? (fun h => h.1 == name)).map (fun h => h.2)

/-- The byte test of `http::HeaderValue`: visible (≥ 32, ≠ 127) or
horizontal tab. -/
def validHeaderChar (c : Char) : Bool :=
  c.toNat == 9 || (32 ≤ c.toNat && c.toNat != 127)

/-- `HeaderValue::from_str` / `str::parse::<HeaderValue>()`: succeeds
exactly when every byte passes the visible-or-tab test.  Characters
≥ U+0080 encode to UTF-8 bytes ≥ 0x80, which all pass, so the check can be
stated per character. -/
def headerValueOfStr (s : String) : Option String :=
  if s.data.all validHeaderChar then some s else none

/-- `struct Client` (`client.rs` lines 29–34): optional credentials, the
`reqwest` transport handle (of which only its `https_only(true)` build
config is state), and the mutable last-request `Instant` (an opaque
monotonic-clock value, modelled as `Nat`). -/
structure Client where
  access_key : Option String
  secret_key : Option String
  httpsOnly : Bool
  last_request_time : Nat
  deriving Repr, DecidableEq

/-- `const API_BASE` -/
def API_BASE : String := "https://coincheck.com"

/-- `Header::NONCE` -/
def Header.NONCE : String := "ACCESS-NONCE"

/-- `Header::SIGNATURE` -/
def Header.SIGNATURE : String := "ACCESS-SIGNATURE"

/-- `Header::KEY` -/
def Header.KEY : String := "ACCESS-KEY"

/-- `reqwest::header::CONTENT_TYPE` (header names are kept lowercase by
`http`). -/
def CONTENT_TYPE : String := "content-type"

/-- `const CONTENT_TYPE_VALUE_JSON` -/
def CONTENT_TYPE_VALUE_JSON : String := "application/json"

/-- An HTTP response as the transport surfaces it. -/
structure Response where
  status : Nat
  body : String
  deriving Repr, DecidableEq

/-- An outbound HTTP request as handed to `reqwest` for sending. -/
structure HttpRequest where
  method : Method
  url : String
  headers : Headers
  deriving Repr, DecidableEq

/-- The effectful inputs of one `Client::request` call: the two clocks and
what the network answers if a request is sent. -/
structure Env where
  /-- `SystemTime::now()` as signed nanoseconds relative to `UNIX_EPOCH`. -/
  nowNanos : Int
  /-- `Instant::now()` at the start of `request`. -/
  nowInstant : Nat
  /-- What `send()` yields for the dispatched request: a transport error or
  a response. -/
  networkResult : Except String Response

/-- Outcome of a fallible Rust computation, with `unwrap`-style panics
distinguished from `Err` returns. -/
inductive PResult (ε α : Type) where
  | ok : α → PResult ε α
  | err : ε → PResult ε α
  | panic : String → PResult ε α
  deriving Repr, DecidableEq

/-- The `anyhow`/`reqwest` errors `Client::request` can return. -/
inductive ApiError where
  /-- `anyhow!("unsupported http method type")` -/
  | unsupportedMethod : ApiError
  /-- a transport failure from `send()` -/
  | transportError : String → ApiError
  /-- `error_for_status_ref` on a 4xx/5xx status, carrying the status -/
  | statusError : Nat → ApiError
  /-- `Response::json::<T>()` failed to decode the body -/
  | decodeError : String → ApiError
  deriving Repr, DecidableEq

/-! ## URL construction (`Url::parse` / `Url::parse_with_params`) -/

/-- Uppercase hexadecimal digit, for percent-encoding. -/
def upperHexDigitChar (n : Nat) : Char :=
  if n < 10 then Char.ofNat (48 + n) else Char.ofNat (55 + n)

/-- Form-urlencoding of one character as the `url` crate's query-pair
serializer does it: ASCII alphanumerics and `*-._` unchanged, space becomes
`+`, anything else percent-encodes its UTF-8 bytes. -/
def formEncodeChar (c : Char) : List Char :=
  if c = ' ' then ['+']
  else if c.isAlphanum || c = '*' || c = '-' || c = '.' || c = '_' then [c]
  else (utf8EncodeCharBytes c).foldr
    (fun b acc =>
      '%' :: upperHexDigitChar (b / 16 % 16) :: upperHexDigitChar (b % 16) :: acc) []

/-- Form-urlencode a string. -/
def formEncode (s : String) : String :=
  String.mk (s.data.foldr (fun c acc => formEncodeChar c ++ acc) [])

/-- `Params`: the source's `HashMap<&str, &str>`, as the key/value pairs in
their (unspecified) iteration order. -/
abbrev Params := List (String × String)

/-- `client.rs` lines 119–125: the final URL string.  `Url::parse` on
`API_BASE + path`; with parameters, `Url::parse_with_params` appends the
form-encoded query pairs.  (The `url` crate's other normalizations do not
fire on the base-plus-path shapes this library produces.) -/
def buildUrl (base : String) : Option Params → String
  | none => base
  | some ps =>
      base ++ "?" ++ String.intercalate "&"
        (ps.map (fun p => formEncode p.1 ++ "=" ++ formEncode p.2))

/-! ## The client operations (`impl Client`) -/

/-- `Client::shared_new` (the `Rc<RefCell<..>>` wrapper is the identity in
this sequential model); `now` is `Instant::now()` at construction. -/
def Client.shared_new (access_key secret_key : Option String) (now : Nat) :
    Client :=
  { access_key := access_key, secret_key := secret_key, httpsOnly := true,
    last_request_time := now }

/-- `Client::get_nonce`: microseconds since `UNIX_EPOCH` as a decimal
string; `SystemTime::duration_since` fails exactly when the clock is before
the epoch, and `Duration::as_micros` is whole microseconds. -/
def Client.get_nonce (nowNanos : Int) : Except String String :=
  if nowNanos < 0 then .error "SystemTime before UNIX EPOCH!"
  else .ok (natToString (nowNanos.toNat / 1000))

/-- `Hmac::<Sha256>::new_from_slice`: HMAC accepts keys of any length, so
this never fails (the crate's `InvalidKeyLength` is unreachable for HMAC). -/
def HmacSha256.new_from_slice (key : List Nat) : Except String (List Nat) :=
  .ok key

/-- `Client::get_signature`: lowercase hex of the HMAC-SHA256 of the
message bytes under the secret-key bytes. -/
def Client.get_signature (secret_key message : String) :
    Except String String :=
  match HmacSha256.new_from_slice (strBytes secret_key) with
  | .ok key => .ok (hexEncode (hmacSha256 key (strBytes message)))
  | .error _ => .error "invalid key length for MAC initialization"

/-- `Client::set_auth_headers`: `?`-propagation is `.err`; the source's
`unwrap()` calls surface as `.panic`. -/
def Client.set_auth_headers (c : Client) (headers : Headers) (url : String)
    (nowNanos : Int) : PResult String Headers :=
  match Client.get_nonce nowNanos with
  | .error e => .err e
  | .ok nonce =>
    match headerValueOfStr nonce with
    | none => .panic "called unwrap on an Err value"
    | some nonceVal =>
      let headers := headerInsert headers Header.NONCE nonceVal
      match c.secret_key with
      | none => .panic "called unwrap on a None value"
      | some sk =>
        let message := nonce ++ url
        match Client.get_signature sk message with
        | .error e => .err e
        | .ok signature =>
          match headerValueOfStr signature with
          | none => .panic "called unwrap on an Err value"
          | some sigVal =>
            let headers := headerInsert headers Header.SIGNATURE sigVal
            match c.access_key with
            | none => .panic "called unwrap on a None value"
            | some ak =>
              match headerValueOfStr ak with
              | none => .panic "called unwrap on an Err value"
              | some akVal => .ok (headerInsert headers Header.KEY akVal)

/-- What one `Client::request` call produced: its outcome, the HTTP
requests actually handed to the transport (in order), and the client state
when the call ended (normally or by panic). -/
structure DispatchResult where
  outcome : PResult ApiError Response
  sent : List HttpRequest
  client : Client

/-- `Client::request` (`client.rs` lines 110–148). -/
def Client.request (c : Client) (method : Method) (path : String)
    (params : Option Params) (use_auth : Bool) (env : Env) : DispatchResult :=
  let c := { c with last_request_time := env.nowInstant }
  let url := buildUrl (API_BASE ++ path) params
  let headers : Headers := []
  match (if use_auth then c.set_auth_headers headers url env.nowNanos
         else .ok headers) with
  | .panic msg => ⟨.panic msg, [], c⟩
  | .err _ => ⟨.panic "called unwrap on an Err value", [], c⟩
  | .ok headers =>
    let headers :=
      if method = .POST ∨ method = .DELETE then
        headerInsert headers CONTENT_TYPE CONTENT_TYPE_VALUE_JSON
      else headers
    match method with
    | .GET | .POST | .DELETE =>
      let req : HttpRequest := ⟨method, url, headers⟩
      match env.networkResult with
      | .error e => ⟨.err (.transportError e), [req], c⟩
      | .ok res =>
        if 400 ≤ res.status ∧ res.status < 600 then
          ⟨.err (.statusError res.status), [req], c⟩
        else ⟨.ok res, [req], c⟩
    | _ => ⟨.err .unsupportedMethod, [], c⟩

/-- `Client::request_and_get_json`, over an arbitrary decoder for the
caller's target shape (`Response::json::<T>()`). -/
def Client.request_and_get_json {T : Type} (decode : String → Except String T)
    (c : Client) (method : Method) (path : String) (params : Option Params)
    (use_auth : Bool) (env : Env) : PResult ApiError T :=
  match (c.request method path params use_auth env).outcome with
  | .ok res =>
    match decode res.body with
    | .ok v => .ok v
    | .error e => .err (.decodeError e)
  | .err e => .err e
  | .panic m => .panic m

/-! ## `SortOrder` (`types.rs` lines 91–123) -/

/-- `enum SortOrder` -/
inductive SortOrder where
  | Asc
  | Desc
  deriving Repr, DecidableEq

/-- `SortOrder::as_str` -/
def SortOrder.as_str : SortOrder → String
  | .Asc => "asc"
  | .Desc => "desc"

/-- `impl fmt::Display for SortOrder`: writes `as_str`. -/
def SortOrder.toDisplayString (o : SortOrder) : String := o.as_str

/-- `impl FromStr for SortOrder`. -/
def SortOrder.from_str (s : String) : Except String SortOrder :=
  if s = SortOrder.Asc.as_str then .ok .Asc
  else if s = SortOrder.Desc.as_str then .ok .Desc
  else .error "undefined SortOrder type"

/-! ## Helper abbreviations for the authenticated path -/

/-- The nonce `get_nonce` yields at system time `t` (nanoseconds since the
epoch, `t ≥ 0`). -/
def nonceOf (t : Int) : String := natToString (t.toNat / 1000)

/-- The signature string `get_signature` yields: lowercase hex HMAC-SHA256
of the message bytes under the secret-key bytes. -/
def signatureOf (sk msg : String) : String :=
  hexEncode (hmacSha256 (strBytes sk) (strBytes msg))

/-- The authentication phase of `request` cannot abort: either no
authentication was asked for, or both credentials are present, the clock is
at or after the epoch, and the access key is a legal header value. -/
def authPhaseOk (c : Client) (use_auth : Bool) (env : Env) : Prop :=
  use_auth = false ∨
    ∃ ak sk, c.access_key = some ak ∧ c.secret_key = some sk ∧
      ak.data.all validHeaderChar = true ∧ 0 ≤ env.nowNanos

set_option maxRecDepth 8192

/-- Golden vector: SHA-256 of the empty message. -/
theorem sha256_golden_empty :
    hexEncode (sha256 []) =
      "e3b0c44298fc1c149afbf4c8996fb92427ae41e4649b934ca495991b7852b855" := by
  decide

/-- Golden vector: HMAC-SHA256 with key `"secret"` and message `"message"`. -/
theorem hmacSha256_golden :
    hexEncode (hmacSha256 (strBytes "secret") (strBytes "message")) =
      "8b5f48702995c1598c573db1e21866a9b825d4a794d169d7060a03605796360b" := by
  decide

/-! ## Facts about decimal strings -/

theorem digitChar_toNat : ∀ n, n < 10 → (digitChar n).toNat = 48 + n := by
  decide

theorem digitChar_isDigit : ∀ n, n < 10 → isDigitChar (digitChar n) = true := by
  decide

theorem natDigits_ne_nil (n : Nat) : natDigits n ≠ [] := by
  rw [natDigits]
  split <;> simp

theorem natDigits_all_digit (n : Nat) :
    (natDigits n).all isDigitChar = true := by
  induction n using Nat.strong_induction_on with
  | _ n ih =>
    rw [natDigits]
    split
    · next h => simp [digitChar_isDigit n h]
    · next h =>
      rw [List.all_append]
      have h1 := ih (n / 10) (Nat.div_lt_self (by omega) (by decide))
      simp [h1, digitChar_isDigit (n % 10) (Nat.mod_lt n (by decide))]

theorem decValue_append_digit (cs : List Char) (c : Char) :
    decValue (cs ++ [c]) = 10 * decValue cs + (c.toNat - 48) := by
  simp [decValue, List.foldl_append]

theorem decValue_natDigits (n : Nat) : decValue (natDigits n) = n := by
  induction n using Nat.strong_induction_on with
  | _ n ih =>
    rw [natDigits]
    split
    · next h =>
      have hd := digitChar_toNat n h
      simp [decValue]
      omega
    · next h =>
      rw [decValue_append_digit,
        ih (n / 10) (Nat.div_lt_self (by omega) (by decide))]
      have hd := digitChar_toNat (n % 10) (Nat.mod_lt n (by decide))
      omega

theorem parseDec_natToString (n : Nat) : parseDec (natToString n) = some n := by
  have h1 := natDigits_ne_nil n
  have h2 := natDigits_all_digit n
  have h3 := decValue_natDigits n
  simp [parseDec, natToString, h2, h3, List.isEmpty_iff, h1]

/-! ## Header-value legality of the values the source unwraps -/

theorem validHeaderChar_of_digit (c : Char) (h : isDigitChar c = true) :
    validHeaderChar c = true := by
  simp [isDigitChar] at h
  simp [validHeaderChar]
  omega

theorem natToString_all_valid (n : Nat) :
    (natToString n).data.all validHeaderChar = true := by
  have h := natDigits_all_digit n
  rw [List.all_eq_true] at h ⊢
  intro c hc
  exact validHeaderChar_of_digit c (h c hc)

theorem headerValueOfStr_natToString (n : Nat) :
    headerValueOfStr (natToString n) = some (natToString n) := by
  simp [headerValueOfStr, natToString_all_valid n]

theorem validHeaderChar_hexDigit : ∀ m, m < 16 →
    validHeaderChar (hexDigitChar m) = true := by
  decide

theorem hexEncode_all_valid (bs : List Nat) :
    (hexEncode bs).data.all validHeaderChar = true := by
  induction bs with
  | nil => rfl
  | cons b t ih =>
    simp only [hexEncode, List.foldr_cons] at ih ⊢
    simp only [List.all_cons, ih, Bool.and_true]
    have hv1 := validHeaderChar_hexDigit (b % 256 / 16) (by omega)
    have hv2 := validHeaderChar_hexDigit (b % 16) (by omega)
    simp [hv1, hv2]

theorem headerValueOfStr_hexEncode (bs : List Nat) :
    headerValueOfStr (hexEncode bs) = some (hexEncode bs) := by
  simp [headerValueOfStr, hexEncode_all_valid bs]

/-! ## Header-map lemmas -/

theorem headerLookup_insert_self (hs : Headers) (n v : String) :
    headerLookup (headerInsert hs n v) n = some v := by
  induction hs with
  | nil => simp [headerInsert, headerLookup]
  | cons a t ih =>
    simp only [headerInsert, List.filter_cons] at ih ⊢
    by_cases h : a.1 = n
    · simp [h, ih]
    · simp only [headerLookup, h] at ih ⊢
      simp [h, ih]

theorem headerLookup_insert_other (hs : Headers) (n v m : String)
    (h : m ≠ n) : headerLookup (headerInsert hs n v) m = headerLookup hs m := by
  have hnm : (n == m) = false := beq_eq_false_iff_ne.mpr (Ne.symm h)
  induction hs with
  | nil => simp [headerInsert, headerLookup, hnm]
  | cons a t ih =>
    simp only [headerInsert, List.filter_cons] at ih ⊢
    by_cases ha : a.1 = n
    · have ham : (a.1 == m) = false := by
        rw [ha]; exact hnm
      simp only [ha, bne_self_eq_false, Bool.false_eq_true, if_false]
      rw [ih]
      simp [headerLookup, ham]
    · have hq : (a.1 != n) = true := by simp [ha]
      simp only [hq, if_true]
      by_cases ham : a.1 = m
      · simp [headerLookup, ham]
      · have ham' : (a.1 == m) = false := by simp [ham]
        simp only [headerLookup, List.cons_append] at ih ⊢
        rw [List.find?_cons_of_neg _ (by simp [ham']),
          List.find?_cons_of_neg _ (by simp [ham'])]
        exact ih

/-! ## Characterizing `set_auth_headers` -/

/-- With both credentials present, a post-epoch clock, and a header-legal
access key, `set_auth_headers` builds exactly the three authentication
headers, in construction order: nonce, then signature over
`nonce ++ url`, then the access key verbatim. -/
theorem set_auth_headers_ok (c : Client) (url : String) (t : Int)
    (ak sk : String) (hak : c.access_key = some ak)
    (hsk : c.secret_key = some sk) (ht : 0 ≤ t)
    (hv : ak.data.all validHeaderChar = true) :
    c.set_auth_headers [] url t =
      .ok [(Header.NONCE, nonceOf t),
           (Header.SIGNATURE, signatureOf sk (nonceOf t ++ url)),
           (Header.KEY, ak)] := by
  have ht' : ¬t < 0 := by omega
  simp only [Client.set_auth_headers, Client.get_nonce, ht', if_false,
    headerValueOfStr_natToString, hsk, hak, Client.get_signature,
    HmacSha256.new_from_slice, headerValueOfStr_hexEncode]
  simp only [headerValueOfStr, hv, if_true]
  simp [headerInsert, Header.NONCE, Header.SIGNATURE, Header.KEY,
    nonceOf, signatureOf]

/-- Without one of the credentials, `set_auth_headers` either propagates
the clock error or hits an `unwrap` panic; it never returns headers. -/
theorem set_auth_headers_no_creds (c : Client) (url : String) (t : Int)
    (h : c.access_key = none ∨ c.secret_key = none) :
    (∃ e, c.set_auth_headers [] url t = .err e) ∨
      ∃ m, c.set_auth_headers [] url t = .panic m := by
  by_cases ht : t < 0
  · exact .inl ⟨"SystemTime before UNIX EPOCH!",
      by simp [Client.set_auth_headers, Client.get_nonce, ht]⟩
  · right
    rcases hsk : c.secret_key with _ | sk
    · exact ⟨"called unwrap on a None value",
        by simp [Client.set_auth_headers, Client.get_nonce, ht,
          headerValueOfStr_natToString, hsk]⟩
    · have hak : c.access_key = none := by
        rcases h with h | h
        · exact h
        · rw [h] at hsk
          exact absurd hsk (by simp)
      exact ⟨"called unwrap on a None value",
        by simp [Client.set_auth_headers, Client.get_nonce, ht,
          headerValueOfStr_natToString, hsk, hak, Client.get_signature,
          HmacSha256.new_from_slice, headerValueOfStr_hexEncode]⟩

/-- Every `.ok` result of `set_auth_headers` extends the incoming map with
exactly the three authentication header names, in that order. -/
theorem set_auth_headers_ok_shape (c : Client) (hs0 : Headers) (url : String)
    (t : Int) (hs : Headers)
    (h : c.set_auth_headers hs0 url t = .ok hs) :
    ∃ nv sv kv,
      hs = headerInsert (headerInsert (headerInsert hs0 Header.NONCE nv)
        Header.SIGNATURE sv) Header.KEY kv := by
  simp only [Client.set_auth_headers, Client.get_signature,
    HmacSha256.new_from_slice, headerValueOfStr_hexEncode] at h
  repeat' split at h
  all_goals cases h
  exact ⟨_, _, _, rfl⟩

/-- `get_nonce` on an at-or-after-epoch clock reading. -/
theorem get_nonce_ok (t : Int) (h : 0 ≤ t) :
    Client.get_nonce t = .ok (natToString (t.toNat / 1000)) := by
  simp [Client.get_nonce, show ¬t < 0 by omega]

/-- `get_nonce` on a before-epoch clock reading. -/
theorem get_nonce_err (t : Int) (h : t < 0) :
    Client.get_nonce t = .error "SystemTime before UNIX EPOCH!" := by
  simp [Client.get_nonce, h]

/-! ## The claims -/

/-- **C4.** The nonce generator returns the decimal-string encoding of the
whole microseconds elapsed since the Unix epoch as reported by the system
clock (`t` is the reading, in nanoseconds since the epoch), and it fails —
with the clock error — exactly when the clock reports a time before the
epoch. -/
theorem get_nonce_contract (t : Int) :
    ((∃ e, Client.get_nonce t = .error e) ↔ t < 0) ∧
    (t < 0 → Client.get_nonce t = .error "SystemTime before UNIX EPOCH!") ∧
    (0 ≤ t →
      Client.get_nonce t = .ok (natToString (t.toNat / 1000)) ∧
      parseDec (natToString (t.toNat / 1000)) = some (t.toNat / 1000)) := by
  refine ⟨⟨?_, ?_⟩, ?_, ?_⟩
  · rintro ⟨e, he⟩
    by_contra hlt
    rw [get_nonce_ok t (by omega)] at he
    cases he
  · intro hlt
    exact ⟨_, get_nonce_err t hlt⟩
  · intro hlt
    exact get_nonce_err t hlt
  · intro hge
    exact ⟨get_nonce_ok t hge, parseDec_natToString _⟩

/-- Witness for C4 at the concrete clock readings 5000 ns and −1 ns. -/
theorem get_nonce_contract_witness :
    Client.get_nonce 5000 = .ok (natToString 5) ∧
    Client.get_nonce (-1) = .error "SystemTime before UNIX EPOCH!" :=
  ⟨((get_nonce_contract 5000).2.2 (by decide)).1,
   (get_nonce_contract (-1)).2.1 (by decide)⟩

/-- **C5.** Nonces generated in sequence are numerically non-decreasing:
for clock readings `t1 ≤ t2` (both at/after the epoch), the two nonce
strings parse back as numbers `v1 ≤ v2`. -/
theorem nonce_monotone (t1 t2 : Int) (h1 : 0 ≤ t1) (h12 : t1 ≤ t2) :
    ∃ s1 s2 v1 v2,
      Client.get_nonce t1 = .ok s1 ∧ Client.get_nonce t2 = .ok s2 ∧
      parseDec s1 = some v1 ∧ parseDec s2 = some v2 ∧ v1 ≤ v2 := by
  refine ⟨_, _, _, _, get_nonce_ok t1 h1, get_nonce_ok t2 (le_trans h1 h12),
    parseDec_natToString _, parseDec_natToString _, ?_⟩
  exact Nat.div_le_div_right (Int.toNat_le_toNat h12)

/-- Witness for C5 at clock readings 1000 ns and 2000 ns. -/
theorem nonce_monotone_witness :
    ∃ s1 s2 v1 v2,
      Client.get_nonce 1000 = .ok s1 ∧ Client.get_nonce 2000 = .ok s2 ∧
      parseDec s1 = some v1 ∧ parseDec s2 = some v2 ∧ v1 ≤ v2 :=
  nonce_monotone 1000 2000 (by decide) (by decide)

/-- **C9.** Serializing a sort order to its string form and parsing it back
is the identity for both recognized tokens, and parsing any other string
fails. -/
theorem sortOrder_roundtrip :
    (∀ o : SortOrder, SortOrder.from_str (SortOrder.toDisplayString o) = .ok o) ∧
    (∀ s : String, s ≠ "asc" → s ≠ "desc" →
      SortOrder.from_str s = .error "undefined SortOrder type") := by
  constructor
  · intro o
    cases o <;> rfl
  · intro s h1 h2
    simp [SortOrder.from_str, SortOrder.toDisplayString, SortOrder.as_str, h1, h2]

/-- Witness for C9: both round trips and a concrete rejected token. -/
theorem sortOrder_roundtrip_witness :
    SortOrder.from_str (SortOrder.toDisplayString SortOrder.Asc) = .ok SortOrder.Asc ∧
    SortOrder.from_str (SortOrder.toDisplayString SortOrder.Desc) = .ok SortOrder.Desc ∧
    SortOrder.from_str "ascending" = .error "undefined SortOrder type" :=
  ⟨sortOrder_roundtrip.1 SortOrder.Asc, sortOrder_roundtrip.1 SortOrder.Desc,
   sortOrder_roundtrip.2 "ascending" (by decide) (by decide)⟩

/-- **C10.** Every dispatch — including ones that subsequently fail —
overwrites the last-request-time marker with the current instant and leaves
every other client field (in particular both credentials) unchanged. -/
theorem dispatch_state (c : Client) (m : Method) (path : String)
    (params : Option Params) (ua : Bool) (env : Env) :
    (c.request m path params ua env).client =
      { access_key := c.access_key, secret_key := c.secret_key,
        httpsOnly := c.httpsOnly, last_request_time := env.nowInstant } := by
  simp only [Client.request]
  repeat' split
  all_goals rfl

/-- **C3.** An authenticated dispatch on a client missing either credential
aborts by panic — a fail-fast programming error, not a recoverable `Err`
return — and no HTTP request is handed to the transport. -/
theorem auth_without_creds_fails_fast (c : Client) (m : Method) (path : String)
    (params : Option Params) (env : Env)
    (h : c.access_key = none ∨ c.secret_key = none) :
    (∃ msg, (c.request m path params true env).outcome = .panic msg) ∧
    (c.request m path params true env).sent = [] := by
  have hh : ({c with last_request_time := env.nowInstant} : Client).access_key = none ∨
      ({c with last_request_time := env.nowInstant} : Client).secret_key = none := by
    simpa using h
  rcases set_auth_headers_no_creds {c with last_request_time := env.nowInstant}
      (buildUrl (API_BASE ++ path) params) env.nowNanos hh with ⟨e, he⟩ | ⟨msg, hmsg⟩
  · exact ⟨⟨"called unwrap on an Err value", by simp [Client.request, he]⟩,
      by simp [Client.request, he]⟩
  · exact ⟨⟨msg, by simp [Client.request, hmsg]⟩, by simp [Client.request, hmsg]⟩

/-- Witness for C3: a keyless client, authenticated GET. -/
theorem auth_without_creds_fails_fast_witness :
    (∃ msg, ((Client.mk none none true 0).request .GET "/api/accounts/balance"
        none true (Env.mk 0 0 (.ok (Response.mk 200 "")))).outcome = .panic msg) ∧
    ((Client.mk none none true 0).request .GET "/api/accounts/balance"
        none true (Env.mk 0 0 (.ok (Response.mk 200 "")))).sent = [] :=
  auth_without_creds_fails_fast _ _ _ _ _ (Or.inl rfl)

/-- **C1.** An authenticated dispatch by a client holding both credentials
attaches exactly three authentication headers, in construction order:
`ACCESS-NONCE` carrying the nonce, `ACCESS-SIGNATURE` carrying the
lowercase-hex HMAC-SHA256 of the bytes of `nonce ++ full_url` (the final
URL actually sent, query string included) under the secret key, and
`ACCESS-KEY` carrying the access key verbatim — and nothing else is set
for authentication (the only further header is the content-type one, on
POST/DELETE). -/
theorem auth_dispatch_headers (c : Client) (m : Method) (path : String)
    (params : Option Params) (env : Env) (ak sk : String)
    (hm : m = .GET ∨ m = .POST ∨ m = .DELETE)
    (hak : c.access_key = some ak) (hsk : c.secret_key = some sk)
    (ht : 0 ≤ env.nowNanos) (hv : ak.data.all validHeaderChar = true) :
    (c.request m path params true env).sent =
      [HttpRequest.mk m (buildUrl (API_BASE ++ path) params)
        ([(Header.NONCE, nonceOf env.nowNanos),
          (Header.SIGNATURE, hexEncode (hmacSha256 (strBytes sk)
            (strBytes (nonceOf env.nowNanos ++ buildUrl (API_BASE ++ path) params)))),
          (Header.KEY, ak)] ++
         (if m = .POST ∨ m = .DELETE then
            [(CONTENT_TYPE, CONTENT_TYPE_VALUE_JSON)] else []))] := by
  have hs := set_auth_headers_ok {c with last_request_time := env.nowInstant}
    (buildUrl (API_BASE ++ path) params) env.nowNanos ak sk (by simpa using hak)
    (by simpa using hsk) ht hv
  rcases hm with hm | hm | hm <;> subst hm <;>
    simp only [Client.request, if_true, hs, signatureOf, headerInsert,
      List.filter_cons, List.filter_nil] <;>
    cases env.networkResult <;>
    simp [headerInsert] <;>
    split <;>
    simp_all [Header.NONCE, Header.SIGNATURE, Header.KEY, CONTENT_TYPE]

/-- Witness for C1: a concrete credentialed client, authenticated GET. -/
theorem auth_dispatch_headers_witness :
    ((Client.mk (some "k") (some "s") true 0).request .GET "/api/ticker" none
        true (Env.mk 0 0 (.ok (Response.mk 200 "")))).sent =
      [HttpRequest.mk .GET (buildUrl (API_BASE ++ "/api/ticker") none)
        ([(Header.NONCE, nonceOf 0),
          (Header.SIGNATURE, hexEncode (hmacSha256 (strBytes "s")
            (strBytes (nonceOf 0 ++ buildUrl (API_BASE ++ "/api/ticker") none)))),
          (Header.KEY, "k")] ++
         (if (Method.GET = .POST ∨ Method.GET = .DELETE) then
            [(CONTENT_TYPE, CONTENT_TYPE_VALUE_JSON)] else []))] :=
  auth_dispatch_headers _ .GET "/api/ticker" none _ "k" "s" (Or.inl rfl) rfl rfl
    (by decide) (by decide)

/-- **C2.** An unauthenticated dispatch attaches none of the three
authentication headers even when credentials are present, its outcome and
outbound traffic do not depend on the stored credentials, and — for a
supported method — it succeeds whenever the network answers with a
non-4xx/5xx response. -/
theorem noauth_dispatch (c : Client) (m : Method) (path : String)
    (params : Option Params) (env : Env) :
    (∀ req ∈ (c.request m path params false env).sent,
      headerLookup req.headers Header.NONCE = none ∧
      headerLookup req.headers Header.SIGNATURE = none ∧
      headerLookup req.headers Header.KEY = none) ∧
    (∀ ak sk : Option String,
      ((Client.mk ak sk c.httpsOnly c.last_request_time).request m path params
          false env).outcome = (c.request m path params false env).outcome ∧
      ((Client.mk ak sk c.httpsOnly c.last_request_time).request m path params
          false env).sent = (c.request m path params false env).sent) ∧
    (∀ r : Response, (m = .GET ∨ m = .POST ∨ m = .DELETE) →
      env.networkResult = .ok r → ¬(400 ≤ r.status ∧ r.status < 600) →
      (c.request m path params false env).outcome = .ok r) := by
  refine ⟨?_, ?_, ?_⟩
  · intro req hreq
    cases m <;>
      cases hN : env.networkResult <;>
      simp [Client.request, hN, headerInsert] at hreq <;>
      (try split at hreq) <;>
      (try simp at hreq) <;>
      subst hreq <;>
      exact ⟨rfl, rfl, rfl⟩
  · intro ak sk
    constructor <;>
      cases m <;>
      cases hN : env.networkResult <;>
      simp [Client.request, hN] <;>
      (try split) <;>
      (try rfl)
  · intro r hm hr hstat
    rcases hm with hm | hm | hm <;> subst hm <;>
      simp [Client.request, hr, hstat]

/-- Witness for C2: an unauthenticated GET on a credentialed client
succeeds against a 200 response. -/
theorem noauth_dispatch_witness :
    ((Client.mk (some "k") (some "s") true 7).request .GET "/api/ticker" none
        false (Env.mk 0 0 (.ok (Response.mk 200 "{}")))).outcome =
      .ok (Response.mk 200 "{}") :=
  (noauth_dispatch _ .GET "/api/ticker" none _).2.2 (Response.mk 200 "{}")
    (Or.inl rfl) rfl (by decide)

/-- **C6.** A dispatch whose method is outside {GET, POST, DELETE} hands
nothing to the transport, and — provided the earlier authentication phase
did not already abort — fails with the unsupported-method error. -/
theorem unsupported_method_rejected (c : Client) (m : Method) (path : String)
    (params : Option Params) (ua : Bool) (env : Env)
    (hm : ¬(m = .GET ∨ m = .POST ∨ m = .DELETE)) :
    (c.request m path params ua env).sent = [] ∧
    (authPhaseOk c ua env →
      (c.request m path params ua env).outcome = .err .unsupportedMethod) := by
  have hm1 : m ≠ .GET := fun h => hm (Or.inl h)
  have hm2 : m ≠ .POST := fun h => hm (Or.inr (Or.inl h))
  have hm3 : m ≠ .DELETE := fun h => hm (Or.inr (Or.inr h))
  cases m
  case GET => exact absurd rfl hm1
  case POST => exact absurd rfl hm2
  case DELETE => exact absurd rfl hm3
  all_goals constructor
  all_goals first
    | (simp only [Client.request]
       split <;> rfl)
    | (intro hok
       rcases hok with hok | ⟨ak, sk, hak, hsk, hv, ht⟩
       · subst hok
         simp [Client.request]
       · have hs := set_auth_headers_ok {c with last_request_time := env.nowInstant}
           (buildUrl (API_BASE ++ path) params) env.nowNanos ak sk
           (by simpa using hak) (by simpa using hsk) ht hv
         cases ua
         · simp [Client.request]
         · simp [Client.request, hs])

/-- Witness for C6: an unauthenticated PUT dispatch. -/
theorem unsupported_method_rejected_witness :
    ((Client.mk none none true 0).request .PUT "/x" none false
        (Env.mk 0 0 (.ok (Response.mk 200 "")))).outcome =
      .err .unsupportedMethod :=
  (unsupported_method_rejected _ .PUT "/x" none false _ (by decide)).2
    (Or.inl rfl)

/-- **C7 (amended).** A dispatch answered with a 4xx/5xx status returns the
status error carrying that status code only — the response body is
discarded, not attached to the error — exactly one request was handed to
the transport (no retry), and the JSON pipeline never yields a decoded
value for it, whatever the decoder.  That the error carries no body is
visible in the conclusion: the body `r.body` is universally quantified yet
absent from the error value. -/
theorem error_status_terminal {T : Type} (decode : String → Except String T)
    (c : Client) (m : Method) (path : String) (params : Option Params)
    (ua : Bool) (env : Env) (r : Response)
    (hm : m = .GET ∨ m = .POST ∨ m = .DELETE)
    (hok : authPhaseOk c ua env)
    (hr : env.networkResult = .ok r)
    (h4 : 400 ≤ r.status) (h6 : r.status < 600) :
    (c.request m path params ua env).outcome = .err (.statusError r.status) ∧
    (c.request m path params ua env).sent.length = 1 ∧
    Client.request_and_get_json decode c m path params ua env =
      .err (.statusError r.status) := by
  have hcond : 400 ≤ r.status ∧ r.status < 600 := ⟨h4, h6⟩
  rcases hok with hok | ⟨ak, sk, hak, hsk, hv, ht⟩
  · subst hok
    rcases hm with hm | hm | hm <;> subst hm <;>
      refine ⟨?_, ?_, ?_⟩ <;>
      simp [Client.request, Client.request_and_get_json, hr, hcond]
  · have hs := set_auth_headers_ok {c with last_request_time := env.nowInstant}
      (buildUrl (API_BASE ++ path) params) env.nowNanos ak sk
      (by simpa using hak) (by simpa using hsk) ht hv
    cases ua <;>
      rcases hm with hm | hm | hm <;> subst hm <;>
      refine ⟨?_, ?_, ?_⟩ <;>
      simp [Client.request, Client.request_and_get_json, hs, hr, hcond]

/-- Witness for C7: an unauthenticated GET answered with status 400. -/
theorem error_status_terminal_witness :
    ((Client.mk (some "k") (some "s") true 3).request .GET "/x" none false
        (Env.mk 0 0 (.ok (Response.mk 400 "bad")))).outcome =
      .err (.statusError 400) ∧
    ((Client.mk (some "k") (some "s") true 3).request .GET "/x" none false
        (Env.mk 0 0 (.ok (Response.mk 400 "bad")))).sent.length = 1 ∧
    Client.request_and_get_json (fun _ => Except.ok ())
        (Client.mk (some "k") (some "s") true 3) .GET "/x" none false
        (Env.mk 0 0 (.ok (Response.mk 400 "bad"))) = .err (.statusError 400) :=
  error_status_terminal (fun _ => Except.ok ()) _ .GET "/x" none false _
    (Response.mk 400 "bad") (Or.inl rfl) (Or.inl rfl) rfl (by decide) (by decide)

/-- **C7, counterexample to the claim as frozen.**  The frozen claim says
the returned `ApiStatusError` carries the status code *and whatever body
the server returned*.  It does not: `error_for_status_ref`
(`client.rs` line 145) builds the error from the status alone and the
early return drops the response, so the body is unrecoverable.  Two
dispatches identical except for the 400-response body — "A" versus "B" —
produce the very same outcome value, `.err (.statusError 400)`, which
mentions only the status; an error that carried the body would have to
differ between the two. -/
theorem error_status_body_not_attached :
    ((Client.mk none none true 0).request .GET "/x" none false
        (Env.mk 0 0 (.ok (Response.mk 400 "A")))).outcome =
      ((Client.mk none none true 0).request .GET "/x" none false
        (Env.mk 0 0 (.ok (Response.mk 400 "B")))).outcome ∧
    ((Client.mk none none true 0).request .GET "/x" none false
        (Env.mk 0 0 (.ok (Response.mk 400 "A")))).outcome =
      .err (.statusError 400) := by
  constructor <;> rfl

/-- **C8.** A dispatched request carries `content-type: application/json`
exactly when its method is POST or DELETE — regardless of the auth flag and
of any body (the source never sends one) — and never on GET. -/
theorem content_type_policy (c : Client) (m : Method) (path : String)
    (params : Option Params) (ua : Bool) (env : Env) :
    ∀ req ∈ (c.request m path params ua env).sent,
      headerLookup req.headers CONTENT_TYPE =
        if m = .POST ∨ m = .DELETE then some CONTENT_TYPE_VALUE_JSON
        else none := by
  intro req hreq
  cases hA : (if ua then
        Client.set_auth_headers {c with last_request_time := env.nowInstant} []
          (buildUrl (API_BASE ++ path) params) env.nowNanos
      else (.ok [] : PResult String Headers)) with
  | panic msg => simp [Client.request, hA] at hreq
  | err e => simp [Client.request, hA] at hreq
  | ok hs =>
    have hlook : headerLookup hs CONTENT_TYPE = none := by
      cases ua with
      | false =>
        simp only [Bool.false_eq_true, if_false] at hA
        cases hA
        rfl
      | true =>
        simp only [if_true] at hA
        rcases set_auth_headers_ok_shape _ _ _ _ _ hA with ⟨nv, sv, kv, rfl⟩
        rw [headerLookup_insert_other _ _ _ _ (by decide),
          headerLookup_insert_other _ _ _ _ (by decide),
          headerLookup_insert_other _ _ _ _ (by decide)]
        rfl
    cases m <;>
      cases hN : env.networkResult <;>
      simp [Client.request, hA, hN] at hreq <;>
      (try split at hreq) <;>
      (try simp at hreq) <;>
      subst hreq <;>
      simp [headerLookup_insert_self, hlook]

/-- Witness for C8: the single request of a concrete unauthenticated POST
dispatch carries the JSON content type. -/
theorem content_type_policy_witness :
    headerLookup [(CONTENT_TYPE, CONTENT_TYPE_VALUE_JSON)] CONTENT_TYPE =
      if (Method.POST = .POST ∨ Method.POST = .DELETE) then
        some CONTENT_TYPE_VALUE_JSON else none :=
  content_type_policy (Client.mk none none true 0) .POST "/x" none false
    (Env.mk 0 0 (.ok (Response.mk 200 "")))
    (HttpRequest.mk .POST (buildUrl (API_BASE ++ "/x") none)
      [(CONTENT_TYPE, CONTENT_TYPE_VALUE_JSON)])
    (by decide)

end Coinchecker
